import Mathlib

/-!
Shallow embedding of `core/tool.py` of the snaptext repository.

The module orchestrates four OCR strategies over one decoded image and
reports token-level confidence statistics.  The external collaborators
(PIL image decoding, the pytesseract engine) are modelled as inputs: an
environment records, for one fixed image, whether decoding succeeds and
what each of the four engine calls would return (or the message of the
exception it would raise).  The orchestration logic itself — collection,
filtering, winner selection, error wrapping — is translated from the
source line by line.
-/

namespace SnapText

/-- Whitespace test used by Python's `str.strip()`, restricted to the
ASCII whitespace characters. -/
def pyIsSpace (c : Char) : Bool :=
  c = ' ' || c = '\t' || c = '\n' || c = '\r' || c = '\x0b' || c = '\x0c'

/-- Python `str.strip()` on a character list: drop leading whitespace,
then drop trailing whitespace (via reverse). -/
def pystripList (l : List Char) : List Char :=
  ((l.dropWhile pyIsSpace).reverse.dropWhile pyIsSpace).reverse

/-- Python `str.strip()`. -/
def pystrip (s : String) : String :=
  String.mk (pystripList s.toList)

/-- Environment of one `extract_text(image_path)` call.

`decode` is the outcome of `Image.open(image_path)` (the image itself is
irrelevant to the orchestration, so it is abstracted to `Unit`; an error
carries `str(e)` of the raised exception).  `method1` … `method4` are the
outcomes of the bodies of the four strategy `try` blocks — methods 1–4 of
the source, in declaration order — each either the raw text returned by
`pytesseract.image_to_string` on that strategy's transformed image, or
the message of whatever exception the block raised (transform or engine
failure alike). -/
structure OcrEnv where
  decode : Except String Unit
  method1 : Except String String
  method2 : Except String String
  method3 : Except String String
  method4 : Except String String

/-- The four strategies with their names, in the order the source tries
them: method 1 `"Enhanced PIL"`, method 2 `"OpenCV Preprocessed"`,
method 3 `"Scaled"`, method 4 `"PSM 8"`. -/
def methodList (env : OcrEnv) : List (String × Except String String) :=
  [("Enhanced PIL", env.method1), ("OpenCV Preprocessed", env.method2),
   ("Scaled", env.method3), ("PSM 8", env.method4)]

/-- The `results` list built by `extract_text`: each strategy whose
`try` block completes appends `(name, text_i)` where `text_i` is the
engine output `.strip()`ped, guarded by `if text_i:` (Python string
truthiness, i.e. only when the stripped text is non-empty); a strategy
whose block raises appends nothing (the `except` only logs). -/
def collectResults (env : OcrEnv) : List (String × String) :=
  (methodList env).filterMap (fun p =>
    match p.2 with
    | .ok t => if pystrip t = "" then none else some (p.1, pystrip t)
    | .error _ => none)

/-- Python `max(results, key=lambda x: len(x[1]))` on a non-empty list
`x :: xs`: fold keeping the current best, replacing it only on a strictly
greater key, so ties keep the earlier element. -/
def pymaxByLen (x : String × String) (xs : List (String × String)) :
    String × String :=
  xs.foldl (fun b y => if b.2.length < y.2.length then y else b) x

/-- `extract_text` of `core/tool.py`.

If `Image.open` raises, control reaches the outer `except` and the
function re-raises `Exception(f"Failed to extract text: {str(e)}")`.
Otherwise every strategy failure is caught strategy-locally; if the
`results` list is empty the function returns `""`, else it returns the
text of `max(results, key=lambda x: len(x[1]))`.  The return type
`Except String String` is `.error msg` for a raised exception and
`.ok text` for a normal return. -/
def extract_text (env : OcrEnv) : Except String String :=
  match env.decode with
  | .error e => .error ("Failed to extract text: " ++ e)
  | .ok _ =>
    match collectResults env with
    | [] => .ok ""
    | x :: xs => .ok (pymaxByLen x xs).2

/-- Token-level engine output: the `data['conf']` and `data['text']`
lists of `pytesseract.image_to_data(..., output_type=Output.DICT)`, with
the `int(conf)` conversion the source applies already folded in. -/
structure TessData where
  conf : List Int
  text : List String
deriving DecidableEq

/-- The success dictionary returned by `get_text_confidence`.  Python's
true division produces a float; it is modelled exactly as a rational. -/
structure ConfReport where
  average_confidence : Rat
  word_count : Nat
  low_confidence_words : Nat
deriving DecidableEq

/-- Result of `get_text_confidence`: either the metrics dictionary or
the `{'error': str(e)}` dictionary. -/
inductive ConfResult where
  | report : ConfReport → ConfResult
  | err : String → ConfResult
deriving DecidableEq

/-- Environment of one `get_text_confidence(image_path)` call: the
outcome of `Image.open` and the outcome of the (single) body up to and
including `pytesseract.image_to_data` on the enhanced image. -/
structure ConfEnv where
  decode : Except String Unit
  engine : Except String TessData

/-- `get_text_confidence` of `core/tool.py`.  The whole body sits in one
`try`; any failure (decode or engine) is caught and the function returns
`{'error': str(e)}`.  On success: `confidences` keeps the strictly
positive entries of `data['conf']`; the average is their mean (`0` if
none); `word_count` counts entries of `data['text']` that are non-empty
after `strip()`; `low_confidence_words` counts entries of `confidences`
below 60. -/
def get_text_confidence (env : ConfEnv) : ConfResult :=
  match env.decode with
  | .error e => .err e
  | .ok _ =>
    match env.engine with
    | .error e => .err e
    | .ok data =>
      let confidences := data.conf.filter (fun c => 0 < c)
      let avg : Rat :=
        if confidences = [] then 0
        else (confidences.sum : Rat) / (confidences.length : Rat)
      .report ⟨avg,
        (data.text.filter (fun w => pystrip w ≠ "")).length,
        (confidences.filter (fun c => c < 60)).length⟩

/-- Whether a strategy block raised (reached its `except` clause). -/
def isErr : Except String String → Bool
  | .error _ => true
  | .ok _ => false

/-! Image-transform model.

`preprocess_image` and `enhance_image_pil` call PIL / numpy / OpenCV.
Their behavior is abstracted to what the claims need: the shape and
dtype of the array a given PIL color mode produces, and the documented
shape/dtype preconditions of each library call the source makes.  A call
whose precondition fails raises (modelled as `.error`); otherwise the
shape/dtype of its result is recorded. -/

/-- PIL color modes of a well-formed in-memory image. -/
inductive PilMode where
  | one
  | L
  | LA
  | P
  | RGB
  | RGBA
  | CMYK
  | I
  | F
deriving DecidableEq

/-- Numpy dtypes arising from `np.array` on a PIL image. -/
inductive NpDtype where
  | npBool
  | npUint8
  | npInt32
  | npFloat32
deriving DecidableEq

/-- Shape/dtype abstraction of a numpy array: `channels = none` for a
2-D `(h, w)` array, `some k` for a 3-D `(h, w, k)` array. -/
structure NpArr where
  channels : Option Nat
  dtype : NpDtype
deriving DecidableEq

/-- Modelled library behavior of `np.array(image)` per PIL mode: `1` →
2-D bool, `L`/`P` → 2-D uint8, `LA` → `(h, w, 2)` uint8, `RGB` →
`(h, w, 3)` uint8, `RGBA`/`CMYK` → `(h, w, 4)` uint8, `I` → 2-D int32,
`F` → 2-D float32. -/
def npArray : PilMode → NpArr
  | .one => ⟨none, .npBool⟩
  | .L => ⟨none, .npUint8⟩
  | .LA => ⟨some 2, .npUint8⟩
  | .P => ⟨none, .npUint8⟩
  | .RGB => ⟨some 3, .npUint8⟩
  | .RGBA => ⟨some 4, .npUint8⟩
  | .CMYK => ⟨some 4, .npUint8⟩
  | .I => ⟨none, .npInt32⟩
  | .F => ⟨none, .npFloat32⟩

/-- Modelled `cv2.cvtColor(a, cv2.COLOR_RGB2GRAY)`: OpenCV asserts the
source has 3 or 4 channels and depth 8-bit unsigned, 16-bit unsigned or
32-bit float (here: uint8 or float32); the result is single-channel of
the same depth. -/
def cvtColorRGB2GRAY (a : NpArr) : Except String NpArr :=
  if (a.channels = some 3 ∨ a.channels = some 4) ∧
      (a.dtype = .npUint8 ∨ a.dtype = .npFloat32) then
    .ok ⟨none, a.dtype⟩
  else
    .error "cvtColor: invalid number of channels or depth"

/-- Modelled `cv2.medianBlur(a, 3)`: with aperture 3 the source must
have 1, 3 or 4 channels and depth 8-bit unsigned, 16-bit unsigned or
32-bit float; a bool or int32 numpy array is not an accepted matrix
type.  Shape and dtype are preserved. -/
def medianBlur3 (a : NpArr) : Except String NpArr :=
  if (a.channels = none ∨ a.channels = some 1 ∨ a.channels = some 3 ∨
        a.channels = some 4) ∧
      (a.dtype = .npUint8 ∨ a.dtype = .npFloat32) then
    .ok a
  else
    .error "medianBlur: unsupported array type"

/-- Modelled `cv2.adaptiveThreshold(a, 255, ADAPTIVE_THRESH_GAUSSIAN_C,
THRESH_BINARY, 11, 2)`: the source must be an 8-bit single-channel
array; the result is again 8-bit single-channel. -/
def adaptiveThreshold11_2 (a : NpArr) : Except String NpArr :=
  if a.channels = none ∧ a.dtype = .npUint8 then
    .ok a
  else
    .error "adaptiveThreshold: src must be 8-bit single-channel"

/-- Modelled `cv2.morphologyEx(a, op, kernel)` with the 1×1 uint8
kernel of the source: supported on the 8-bit single-channel arrays it is
reached with; shape and dtype preserved. -/
def morphologyEx (a : NpArr) : NpArr := a

/-- Modelled `Image.fromarray` on the 2-D uint8 array this pipeline
produces: yields a mode-`L` image. -/
def fromarray : NpArr → PilMode := fun _ => PilMode.L

/-- Modelled `image.convert('L')`: defined by PIL for every mode of a
well-formed image, result mode `L`. -/
def convertL : PilMode → PilMode := fun _ => PilMode.L

/-- `preprocess_image` of `core/tool.py`, tracked at the shape/dtype
level of its image argument: `np.array`, grayscale conversion when the
array is 3-D (`len(img_array.shape) == 3`), median blur, adaptive
threshold, the two morphology passes, and `Image.fromarray`. -/
def preprocess_image (m : PilMode) : Except String PilMode := do
  let imgArray := npArray m
  let gray ← match imgArray.channels with
    | some _ => cvtColorRGB2GRAY imgArray
    | none => pure imgArray
  let denoised ← medianBlur3 gray
  let thresh ← adaptiveThreshold11_2 denoised
  let cleaned := morphologyEx (morphologyEx thresh)
  pure (fromarray cleaned)

/-- `enhance_image_pil` of `core/tool.py` at the mode level: convert to
`'L'` unless already `'L'`, then contrast, sharpness and unsharp-mask
enhancement, all of which preserve the mode.  Total: no library call in
this pipeline has a mode precondition. -/
def enhance_image_pil (m : PilMode) : PilMode :=
  if m = PilMode.L then m else convertL m

/-! Concrete environments used by the closed theorems below. -/

/-- Environment of the repository test `test_extract_text_all_methods_fail`:
the image decodes, every `pytesseract.image_to_string` call raises
`Exception("Tesseract failed")`. -/
def envAllFail : OcrEnv :=
  ⟨.ok (), .error "Tesseract failed", .error "Tesseract failed",
   .error "Tesseract failed", .error "Tesseract failed"⟩

/-- Environment with a length tie between the first two strategies
(stripped texts `"ab"` and `"cd"`), a shorter third result and a failing
fourth strategy. -/
def envTie : OcrEnv :=
  ⟨.ok (), .ok "ab ", .ok " cd", .ok "x", .error "boom"⟩

/-- Environment in which every strategy completes but returns only
whitespace. -/
def envAllBlank : OcrEnv :=
  ⟨.ok (), .ok "  ", .ok "", .ok "\n\t ", .ok " "⟩

/-- Environment of the repository test `test_extract_text_partial_failure`
shape: exactly one strategy raises, the rest succeed with non-empty
text. -/
def envOneFail : OcrEnv :=
  ⟨.ok (), .error "Method 1 failed", .ok "Success from method 2",
   .ok "hi", .ok "ok!"⟩

/-- Environment whose decoded image is invalid: `Image.open` raises an
exception with message `"bad image"`; the engine outcomes are arbitrary
placeholders (they are never consulted). -/
def envBadDecode : OcrEnv :=
  ⟨.error "bad image", .ok "a", .ok "b", .ok "c", .ok "d"⟩

/-- Confidence-call environment whose decode fails with `"bad image"`. -/
def cenvBadDecode : ConfEnv :=
  ⟨.error "bad image", .ok ⟨[90], ["hi"]⟩⟩

/-- Confidence-call environment with a single token of non-positive
confidence but non-empty text. -/
def cenvNonPos : ConfEnv :=
  ⟨.ok (), .ok ⟨[-1], ["Hi"]⟩⟩

/-- Word count as the claim under scrutiny describes it: tokens with
non-positive confidence excluded from the count, so only tokens that
have strictly positive confidence and non-empty trimmed text are
counted. -/
def claimedWordCount (data : TessData) : Nat :=
  ((data.conf.zip data.text).filter
    (fun p => decide (0 < p.1) && decide (pystrip p.2 ≠ ""))).length

/-- Confidence-call environment with a mix of positive and non-positive
confidences. -/
def cenvMixed : ConfEnv :=
  ⟨.ok (), .ok ⟨[50, -3, 70], ["aa", "", "b"]⟩⟩

/-- Confidence-call environment of the repository test
`test_get_confidence_mock_data`: confidences `[95, 87, 92, 78, 0, 88]`
with texts `["Hello", "World", "Test", "Text", "", "OCR"]`. -/
def cenvRegression : ConfEnv :=
  ⟨.ok (), .ok ⟨[95, 87, 92, 78, 0, 88],
    ["Hello", "World", "Test", "Text", "", "OCR"]⟩⟩

/-- Confidence-call environment in which the image decodes but the
token-level engine call raises. -/
def cenvEngineDown : ConfEnv :=
  ⟨.ok (), .error "engine down"⟩

/-! Helper lemmas. -/

/-- Python's `max` with a key: the fold keeps the accumulator unless the
key strictly increases.  Either the accumulator survives and bounds the
whole list, or the result sits in the list, strictly exceeds the
accumulator and everything before it, and bounds everything after it. -/
theorem pymaxByLen_spec (x : String × String) (xs : List (String × String)) :
    (pymaxByLen x xs = x ∧ ∀ y ∈ xs, y.2.length ≤ x.2.length) ∨
    (∃ l₁ l₂, xs = l₁ ++ pymaxByLen x xs :: l₂ ∧
      x.2.length < (pymaxByLen x xs).2.length ∧
      (∀ y ∈ l₁, y.2.length < (pymaxByLen x xs).2.length) ∧
      ∀ y ∈ l₂, y.2.length ≤ (pymaxByLen x xs).2.length) := by
  induction xs generalizing x with
  | nil => exact Or.inl ⟨rfl, by simp⟩
  | cons y ys ih =>
    have hstep : pymaxByLen x (y :: ys) =
        pymaxByLen (if x.2.length < y.2.length then y else x) ys := rfl
    by_cases hxy : x.2.length < y.2.length
    · rw [hstep, if_pos hxy]
      rcases ih y with ⟨heq, hub⟩ | ⟨l₁, l₂, hd, hlt, hl₁, hl₂⟩
      · refine Or.inr ⟨[], ys, ?_, ?_, by simp, ?_⟩
        · rw [heq]; rfl
        · rw [heq]; exact hxy
        · rw [heq]; exact hub
      · refine Or.inr ⟨y :: l₁, l₂, ?_, lt_trans hxy hlt, ?_, hl₂⟩
        · rw [List.cons_append, ← hd]
        · intro z hz
          rcases List.mem_cons.mp hz with rfl | hz
          · exact hlt
          · exact hl₁ z hz
    · rw [hstep, if_neg hxy]
      have hyx : y.2.length ≤ x.2.length := le_of_not_lt hxy
      rcases ih x with ⟨heq, hub⟩ | ⟨l₁, l₂, hd, hlt, hl₁, hl₂⟩
      · refine Or.inl ⟨heq, ?_⟩
        intro z hz
        rcases List.mem_cons.mp hz with rfl | hz
        · exact hyx
        · exact hub z hz
      · refine Or.inr ⟨y :: l₁, l₂, ?_, hlt, ?_, hl₂⟩
        · rw [List.cons_append, ← hd]
        · intro z hz
          rcases List.mem_cons.mp hz with rfl | hz
          · exact lt_of_le_of_lt hyx hlt
          · exact hl₁ z hz

/-- The head surviving `dropWhile p` fails `p`. -/
theorem head?_dropWhile_false (p : Char → Bool) (l : List Char) (c : Char)
    (h : (l.dropWhile p).head? = some c) : p c = false := by
  induction l with
  | nil => simp [List.dropWhile] at h
  | cons a l ih =>
    rw [List.dropWhile_cons] at h
    by_cases hp : p a
    · rw [if_pos hp] at h
      exact ih h
    · rw [if_neg hp] at h
      simp only [List.head?_cons, Option.some.injEq] at h
      subst h
      simpa using hp

/-- The last character of a stripped character list is not whitespace. -/
theorem pystripList_getLast (l : List Char) (c : Char)
    (h : (pystripList l).getLast? = some c) : pyIsSpace c = false := by
  unfold pystripList at h
  rw [List.getLast?_reverse] at h
  exact head?_dropWhile_false _ _ _ h

/-- The first character of a stripped character list is not whitespace. -/
theorem pystripList_head (l : List Char) (c : Char)
    (h : (pystripList l).head? = some c) : pyIsSpace c = false := by
  have hsplit :
      (l.dropWhile pyIsSpace).reverse.takeWhile pyIsSpace ++
        (l.dropWhile pyIsSpace).reverse.dropWhile pyIsSpace =
      (l.dropWhile pyIsSpace).reverse :=
    List.takeWhile_append_dropWhile pyIsSpace (l.dropWhile pyIsSpace).reverse
  have h2 : l.dropWhile pyIsSpace =
      ((l.dropWhile pyIsSpace).reverse.dropWhile pyIsSpace).reverse ++
        ((l.dropWhile pyIsSpace).reverse.takeWhile pyIsSpace).reverse := by
    calc l.dropWhile pyIsSpace
        = (l.dropWhile pyIsSpace).reverse.reverse := (List.reverse_reverse _).symm
      _ = ((l.dropWhile pyIsSpace).reverse.takeWhile pyIsSpace ++
            (l.dropWhile pyIsSpace).reverse.dropWhile pyIsSpace).reverse := by
            rw [hsplit]
      _ = _ := by rw [List.reverse_append]
  have hhead : (l.dropWhile pyIsSpace).head? = some c := by
    rw [h2, List.head?_append]
    have hP : pystripList l =
        ((l.dropWhile pyIsSpace).reverse.dropWhile pyIsSpace).reverse := rfl
    rw [hP] at h
    rw [h]
    rfl
  exact head?_dropWhile_false _ _ _ hhead

/-- Membership in the collected `results` list characterised: an entry
is the name of a strategy whose block returned text with non-empty
strip, paired with that stripped text. -/
theorem mem_collectResults {env : OcrEnv} {q : String × String} :
    q ∈ collectResults env ↔
      ∃ p ∈ methodList env, ∃ t, p.2 = .ok t ∧ pystrip t ≠ "" ∧
        q = (p.1, pystrip t) := by
  simp only [collectResults, List.mem_filterMap]
  constructor
  · rintro ⟨p, hp, hq⟩
    cases hpe : p.2 with
    | error e => rw [hpe] at hq; simp at hq
    | ok t =>
      rw [hpe] at hq
      by_cases ht : pystrip t = ""
      · simp [ht] at hq
      · simp only [ht, if_false, Option.some.injEq] at hq
        exact ⟨p, hp, t, hpe, ht, hq.symm⟩
  · rintro ⟨p, hp, t, hpe, ht, rfl⟩
    refine ⟨p, hp, ?_⟩
    rw [hpe]
    simp [ht]

/-- Core selection lemma: when the image decodes and the collected list
is non-empty, `extract_text` returns the text of an entry that strictly
beats every earlier entry and weakly bounds every entry. -/
theorem collectResults_max (env : OcrEnv) (hdec : env.decode = .ok ())
    (x : String × String) (xs : List (String × String))
    (h : collectResults env = x :: xs) :
    ∃ l₁ r l₂, collectResults env = l₁ ++ r :: l₂ ∧
      extract_text env = .ok r.2 ∧
      (∀ y ∈ l₁, y.2.length < r.2.length) ∧
      ∀ y ∈ collectResults env, y.2.length ≤ r.2.length := by
  have hex : extract_text env = .ok (pymaxByLen x xs).2 := by
    unfold extract_text
    rw [hdec, h]
  rcases pymaxByLen_spec x xs with ⟨heq, hub⟩ | ⟨l₁, l₂, hd, hlt, hl₁, hl₂⟩
  · refine ⟨[], x, xs, by rw [h]; rfl, by rw [hex, heq], by simp, ?_⟩
    intro y hy
    rw [h] at hy
    rcases List.mem_cons.mp hy with rfl | hy
    · exact le_refl _
    · exact hub y hy
  · refine ⟨x :: l₁, pymaxByLen x xs, l₂, ?_, hex, ?_, ?_⟩
    · rw [h, List.cons_append, ← hd]
    · intro y hy
      rcases List.mem_cons.mp hy with rfl | hy
      · exact hlt
      · exact hl₁ y hy
    · intro y hy
      rw [h] at hy
      rcases List.mem_cons.mp hy with rfl | hy
      · exact le_of_lt hlt
      · rw [hd] at hy
        rcases List.mem_append.mp hy with hy | hy
        · exact le_of_lt (hl₁ y hy)
        · rcases List.mem_cons.mp hy with rfl | hy
          · exact le_refl _
          · exact hl₂ y hy

/-! Claim theorems. -/

/-- C1: when the image decodes but all four strategy blocks raise, the
code reaches `if not results: return ""` and returns the empty string —
it does not raise.  This contradicts both the claim and the repository's
own test `test_extract_text_all_methods_fail`, which expects an
exception matching `"Failed to extract text"` in exactly this
situation. -/
theorem extract_text_all_strategies_fail_returns_empty :
    extract_text envAllFail = .ok "" := rfl

/-- C2: when the image decodes and at least one strategy contributed,
`extract_text` returns the text of a collected result that strictly
exceeds every result collected before it and weakly bounds every
collected result — the longest text, ties resolved in favour of the
strategy declared earliest (the collected list preserves the fixed
declaration order Enhanced PIL, OpenCV Preprocessed, Scaled, PSM 8). -/
theorem extract_text_longest_earliest (env : OcrEnv)
    (hdec : env.decode = .ok ()) (hne : collectResults env ≠ []) :
    ∃ l₁ r l₂, collectResults env = l₁ ++ r :: l₂ ∧
      extract_text env = .ok r.2 ∧
      (∀ y ∈ l₁, y.2.length < r.2.length) ∧
      ∀ y ∈ collectResults env, y.2.length ≤ r.2.length := by
  obtain ⟨x, xs, h⟩ := List.exists_cons_of_ne_nil hne
  exact collectResults_max env hdec x xs h

/-- Witness for C2 on `envTie`, where the first two strategies tie at
length two. -/
theorem extract_text_longest_earliest_witness :
    ∃ l₁ r l₂, collectResults envTie = l₁ ++ r :: l₂ ∧
      extract_text envTie = .ok r.2 ∧
      (∀ y ∈ l₁, y.2.length < r.2.length) ∧
      ∀ y ∈ collectResults envTie, y.2.length ≤ r.2.length :=
  extract_text_longest_earliest envTie rfl (by decide)

/-- C3: when the image decodes and every strategy block completes with
text that is empty after stripping, the collected list is empty and
`extract_text` returns `""` without raising. -/
theorem extract_text_all_blank_returns_empty (env : OcrEnv)
    (hdec : env.decode = .ok ())
    (h : ∀ p ∈ methodList env, ∃ t, p.2 = .ok t ∧ pystrip t = "") :
    extract_text env = .ok "" := by
  have hcol : collectResults env = [] := by
    unfold collectResults
    rw [List.filterMap_eq_nil_iff]
    intro p hp
    obtain ⟨t, hpt, ht⟩ := h p hp
    rw [hpt]
    simp [ht]
  unfold extract_text
  rw [hdec, hcol]

/-- Witness for C3 on `envAllBlank`. -/
theorem extract_text_all_blank_returns_empty_witness :
    extract_text envAllBlank = .ok "" :=
  extract_text_all_blank_returns_empty envAllBlank rfl (by
    intro p hp
    simp only [methodList, envAllBlank, List.mem_cons,
      List.not_mem_nil, or_false] at hp
    rcases hp with rfl | rfl | rfl | rfl <;> exact ⟨_, rfl, by decide⟩)

/-- C6: on the literal regression data — confidences
`[95, 87, 92, 78, 0, 88]`, texts `["Hello","World","Test","Text","","OCR"]` —
the code yields average 88, word count 5, but zero low-confidence words:
its cutoff is `conf < 60` and the minimum surviving confidence is 78.
The claim (and the repository's own test
`test_get_confidence_mock_data`) demand `low_confidence_words = 1`. -/
theorem get_text_confidence_regression_case :
    get_text_confidence cenvRegression = .report ⟨88, 5, 0⟩ := by
  have h1 : get_text_confidence cenvRegression =
      .report ⟨((440 : Int) : Rat) / ((5 : Nat) : Rat), 5, 0⟩ := rfl
  have h2 : ((440 : Int) : Rat) / ((5 : Nat) : Rat) = 88 := by norm_num
  rw [h1, h2]

/-- C7 counterexample: on a failing decode, `extract_text` raises a
fresh exception whose message wraps the decode message — it is not the
decode error unchanged — and `get_text_confidence` does not raise at
all: it returns the error-marked dictionary. -/
theorem decode_error_not_propagated_unchanged :
    extract_text envBadDecode = .error "Failed to extract text: bad image" ∧
    "Failed to extract text: bad image" ≠ "bad image" ∧
    get_text_confidence cenvBadDecode = .err "bad image" :=
  ⟨rfl, by decide, rfl⟩

/-- C7 amended: on a failing decode no strategy or engine call is
consulted (the result is the same whatever the engine would return);
`extract_text` raises `Exception("Failed to extract text: " + msg)`
wrapping the decode message, and `get_text_confidence` returns the
error-marked report carrying the decode message instead of raising. -/
theorem decode_error_wrapped_and_reported (e : String) (env : OcrEnv)
    (cenv : ConfEnv) (hdec : env.decode = .error e)
    (hcdec : cenv.decode = .error e) :
    extract_text env = .error ("Failed to extract text: " ++ e) ∧
    get_text_confidence cenv = .err e := by
  constructor
  · unfold extract_text
    rw [hdec]
  · unfold get_text_confidence
    rw [hcdec]

/-- Witness for the amended C7 on `envBadDecode` / `cenvBadDecode`. -/
theorem decode_error_wrapped_and_reported_witness :
    extract_text envBadDecode = .error ("Failed to extract text: " ++ "bad image") ∧
    get_text_confidence cenvBadDecode = .err "bad image" :=
  decode_error_wrapped_and_reported "bad image" envBadDecode cenvBadDecode rfl rfl

/-- C8: when the image decodes but the token-level engine call raises,
`get_text_confidence` returns the error-marked report with the engine's
message; it never raises to its caller. -/
theorem get_text_confidence_engine_failure (env : ConfEnv) (e : String)
    (hdec : env.decode = .ok ()) (heng : env.engine = .error e) :
    get_text_confidence env = .err e := by
  unfold get_text_confidence
  rw [hdec, heng]

/-- Witness for C8 on `cenvEngineDown`. -/
theorem get_text_confidence_engine_failure_witness :
    get_text_confidence cenvEngineDown = .err "engine down" :=
  get_text_confidence_engine_failure cenvEngineDown "engine down" rfl rfl

/-- C9 counterexample: an `LA`-mode image is well formed, but its numpy
array is `(h, w, 2)`, so `preprocess_image` takes the
`len(img_array.shape) == 3` branch and `cv2.cvtColor(..., RGB2GRAY)`
rejects the 2-channel source — the transform raises rather than
returning an image. -/
theorem preprocess_image_LA_raises :
    preprocess_image PilMode.LA =
      .error "cvtColor: invalid number of channels or depth" := rfl

/-- C9 amended: `enhance_image_pil` is total over every color mode
(it converts to `L` first), but `preprocess_image` is total only over
modes whose numpy array is 8-bit with one, three or four channels
(`L`, `P`, `RGB`, `RGBA`, `CMYK`); it raises on `1`, `LA`, `I` and
`F`. -/
theorem transforms_totality_by_mode (m : PilMode) :
    enhance_image_pil m = PilMode.L ∧
    ((preprocess_image m).isOk = true ↔
      (m = PilMode.L ∨ m = PilMode.P ∨ m = PilMode.RGB ∨
        m = PilMode.RGBA ∨ m = PilMode.CMYK)) := by
  cases m <;> exact ⟨rfl, by decide⟩

/-- C4: when the image decodes, exactly one strategy block raises and
every strategy block that completes returns text that is non-empty after
stripping, `extract_text` does not raise: it returns the stripped output
of one of the successful strategies, of maximal length among them.  The
single failure never aborts the others. -/
theorem extract_text_one_failure (env : OcrEnv) (hdec : env.decode = .ok ())
    (herr : ((methodList env).filter (fun p => isErr p.2)).length = 1)
    (hok : ∀ p ∈ methodList env, ∀ t, p.2 = .ok t → pystrip t ≠ "") :
    ∃ s, extract_text env = .ok s ∧
      (∃ p ∈ methodList env, ∃ t, p.2 = .ok t ∧ s = pystrip t) ∧
      ∀ p ∈ methodList env, ∀ t, p.2 = .ok t →
        (pystrip t).length ≤ s.length := by
  have hsome : ∃ p ∈ methodList env, isErr p.2 = false := by
    by_contra hc
    push_neg at hc
    have hall : ∀ p ∈ methodList env, isErr p.2 = true := by
      intro p hp
      cases hb : isErr p.2
      · exact absurd hb (hc p hp)
      · rfl
    have hfe : (methodList env).filter (fun p => isErr p.2) = methodList env :=
      List.filter_eq_self.mpr hall
    rw [hfe] at herr
    simp [methodList] at herr
  obtain ⟨p0, hp0, hne0⟩ := hsome
  obtain ⟨t0, ht0⟩ : ∃ t, p0.2 = .ok t := by
    cases hq : p0.2 with
    | error e => rw [hq] at hne0; simp [isErr] at hne0
    | ok t => exact ⟨t, rfl⟩
  have hnz0 : pystrip t0 ≠ "" := hok p0 hp0 t0 ht0
  have hmem : (p0.1, pystrip t0) ∈ collectResults env :=
    mem_collectResults.mpr ⟨p0, hp0, t0, ht0, hnz0, rfl⟩
  have hcne : collectResults env ≠ [] := by
    intro hc
    rw [hc] at hmem
    exact absurd hmem (List.not_mem_nil _)
  obtain ⟨x, xs, hx⟩ := List.exists_cons_of_ne_nil hcne
  obtain ⟨l₁, r, l₂, hdc, hex, hl₁, hub⟩ := collectResults_max env hdec x xs hx
  refine ⟨r.2, hex, ?_, ?_⟩
  · have hrmem : r ∈ collectResults env := by
      rw [hdc]
      exact List.mem_append_right _ (List.mem_cons_self _ _)
    obtain ⟨p, hp, t, hpt, hnz, hr⟩ := mem_collectResults.mp hrmem
    exact ⟨p, hp, t, hpt, by rw [hr]⟩
  · intro p hp t hpt
    by_cases hz : pystrip t = ""
    · rw [hz]
      simp
    · exact hub _ (mem_collectResults.mpr ⟨p, hp, t, hpt, hz, rfl⟩)

/-- Witness for C4 on `envOneFail`, where only the first strategy
raises. -/
theorem extract_text_one_failure_witness :
    ∃ s, extract_text envOneFail = .ok s ∧
      (∃ p ∈ methodList envOneFail, ∃ t, p.2 = .ok t ∧ s = pystrip t) ∧
      ∀ p ∈ methodList envOneFail, ∀ t, p.2 = .ok t →
        (pystrip t).length ≤ s.length :=
  extract_text_one_failure envOneFail rfl (by decide) (by
    intro p hp t ht
    simp only [methodList, envOneFail, List.mem_cons,
      List.not_mem_nil, or_false] at hp
    rcases hp with rfl | rfl | rfl | rfl
    · simp at ht
    · injection ht with h
      subst h
      decide
    · injection ht with h
      subst h
      decide
    · injection ht with h
      subst h
      decide)

/-- C5 counterexample: a token with non-positive confidence and
non-empty text is counted by the code's `word_count` (which looks only
at `data['text']`), while the claim's word count — non-positive
confidences excluded — would be 0. -/
theorem word_count_keeps_nonpositive_token :
    get_text_confidence cenvNonPos = .report ⟨0, 1, 0⟩ ∧
    claimedWordCount ⟨[-1], ["Hi"]⟩ = 0 :=
  ⟨rfl, rfl⟩

/-- C5 amended: the average confidence is the arithmetic mean of the
strictly positive per-token confidences (0 if there are none), and
non-positive tokens are excluded from the mean and from the
low-confidence count; the word count, however, is computed over the
unfiltered token list — it counts every token whose text is non-empty
after stripping, regardless of confidence. -/
theorem get_text_confidence_report_fields (env : ConfEnv) (data : TessData)
    (hdec : env.decode = .ok ()) (heng : env.engine = .ok data) :
    ∃ r, get_text_confidence env = .report r ∧
      r.word_count = (data.text.filter (fun w => pystrip w ≠ "")).length ∧
      r.low_confidence_words =
        ((data.conf.filter (fun c => 0 < c)).filter (fun c => c < 60)).length ∧
      (data.conf.filter (fun c => 0 < c) = [] → r.average_confidence = 0) ∧
      (data.conf.filter (fun c => 0 < c) ≠ [] →
        r.average_confidence *
            ((data.conf.filter (fun c => 0 < c)).length : Rat) =
          ((data.conf.filter (fun c => 0 < c)).sum : Rat)) := by
  unfold get_text_confidence
  rw [hdec, heng]
  refine ⟨_, rfl, rfl, rfl, ?_, ?_⟩
  · intro h
    simp only [h, if_pos]
  · intro h
    simp only [h, if_neg, ite_false]
    have hlen : ((data.conf.filter (fun c => 0 < c)).length : Rat) ≠ 0 := by
      have := List.length_pos.mpr h
      exact_mod_cast Nat.pos_iff_ne_zero.mp this
    exact div_mul_cancel₀ _ hlen

/-- Witness for the amended C5 on `cenvMixed`. -/
theorem get_text_confidence_report_fields_witness :
    ∃ r, get_text_confidence cenvMixed = .report r ∧
      r.word_count =
        (((⟨[50, -3, 70], ["aa", "", "b"]⟩ : TessData)).text.filter
          (fun w => pystrip w ≠ "")).length ∧
      r.low_confidence_words =
        ((((⟨[50, -3, 70], ["aa", "", "b"]⟩ : TessData)).conf.filter
            (fun c => 0 < c)).filter (fun c => c < 60)).length ∧
      ((⟨[50, -3, 70], ["aa", "", "b"]⟩ : TessData).conf.filter
          (fun c => 0 < c) = [] → r.average_confidence = 0) ∧
      ((⟨[50, -3, 70], ["aa", "", "b"]⟩ : TessData).conf.filter
          (fun c => 0 < c) ≠ [] →
        r.average_confidence *
            (((⟨[50, -3, 70], ["aa", "", "b"]⟩ : TessData).conf.filter
              (fun c => 0 < c)).length : Rat) =
          (((⟨[50, -3, 70], ["aa", "", "b"]⟩ : TessData).conf.filter
            (fun c => 0 < c)).sum : Rat)) :=
  get_text_confidence_report_fields cenvMixed ⟨[50, -3, 70], ["aa", "", "b"]⟩
    rfl rfl

/-- C10: whenever the image decodes, `extract_text` returns (never
raises), and its result is either `""` or exactly the stripped output of
one of the four engine calls; a non-empty result starts and ends with a
non-whitespace character and contains a non-whitespace character, so it
is never whitespace-only and never a concatenation of several engine
outputs. -/
theorem extract_text_result_shape (env : OcrEnv)
    (hdec : env.decode = .ok ()) :
    ∃ s, extract_text env = .ok s ∧
      (s = "" ∨
        ((∃ p ∈ methodList env, ∃ t, p.2 = .ok t ∧ s = pystrip t) ∧
          s ≠ "" ∧
          (∀ c, s.toList.head? = some c → pyIsSpace c = false) ∧
          (∀ c, s.toList.getLast? = some c → pyIsSpace c = false) ∧
          ∃ c ∈ s.toList, pyIsSpace c = false)) := by
  cases hx : collectResults env with
  | nil =>
    refine ⟨"", ?_, Or.inl rfl⟩
    unfold extract_text
    rw [hdec, hx]
  | cons x xs =>
    obtain ⟨l₁, r, l₂, hdc, hex, hl₁, hub⟩ := collectResults_max env hdec x xs hx
    have hrmem : r ∈ collectResults env := by
      rw [hdc]
      exact List.mem_append_right _ (List.mem_cons_self _ _)
    obtain ⟨p, hp, t, hpt, hnz, hr⟩ := mem_collectResults.mp hrmem
    have hs : r.2 = pystrip t := by rw [hr]
    refine ⟨r.2, hex, Or.inr ⟨⟨p, hp, t, hpt, hs⟩, ?_, ?_, ?_, ?_⟩⟩
    · rw [hs]
      exact hnz
    · intro c hc
      rw [hs] at hc
      exact pystripList_head t.toList c hc
    · intro c hc
      rw [hs] at hc
      exact pystripList_getLast t.toList c hc
    · cases hl : pystripList t.toList with
      | nil =>
        have hemp : pystrip t = "" := by
          unfold pystrip
          rw [hl]
        exact absurd hemp hnz
      | cons c cs =>
        have htl : r.2.toList = c :: cs := by
          rw [hs]
          exact hl
        refine ⟨c, ?_, ?_⟩
        · rw [htl]
          exact List.mem_cons_self _ _
        · refine pystripList_head t.toList c ?_
          rw [hl]
          rfl

/-- Witness for C10 on `envTie`. -/
theorem extract_text_result_shape_witness :
    ∃ s, extract_text envTie = .ok s ∧
      (s = "" ∨
        ((∃ p ∈ methodList envTie, ∃ t, p.2 = .ok t ∧ s = pystrip t) ∧
          s ≠ "" ∧
          (∀ c, s.toList.head? = some c → pyIsSpace c = false) ∧
          (∀ c, s.toList.getLast? = some c → pyIsSpace c = false) ∧
          ∃ c ∈ s.toList, pyIsSpace c = false)) :=
  extract_text_result_shape envTie rfl

end SnapText
